import Mathlib

/-!
Shallow embedding of the shuttle-service vehicle-tracking application's
motion-simulator core, together with proofs about the properties its
specification asserts.

The embedded code comes from three places in the repository:
* the WebSocket server (`server.js`): `generateVehicles`,
  `calculateDistance`, `calculateBearing`, the interval tick of
  `startVehicleSimulation` (ping-pong traversal), `stopVehicleSimulation`;
* the client vehicle service (`vehicleService.js`): the per-vehicle
  initializer with its bidirectional-route construction and catch-block
  fallback, and its variant of the interval tick;
* the client socket utility (`src/utils/socketUtils.js`): its vehicle
  initializer (which leaves `progress` undefined) and its loop-to-start
  interval tick, plus the geodesy helpers of
  `src/utils/locationUtils.js`.

Modelling conventions:
* JS numbers are real numbers (`ℝ`); where `undefined`/`NaN` behaviour
  matters (the socket utility's `progress`) a number is `Option ℝ`, with
  `none` standing for "not a real number" (`undefined` or `NaN`), since
  `undefined + x` and `NaN + x` are `NaN`, `NaN` absorbs `+`/`*`, and
  every `NaN` comparison is false.
* JS array indexing `a[i]` is `Option`-valued (`none` = `undefined`).
* A tick function returns `Option state`: `none` models the JS code
  throwing a `TypeError` (reading `.latitude` of `undefined`); on every
  state reachable from the initializers the result is `some`.
* `Math.atan2 y x` is the argument of the complex number `x + y*i`,
  which has the same range `(-π, π]` and sign conventions.
-/

namespace ShuttleSim

open Real

/-- A geographic coordinate `{latitude, longitude}` in degrees. -/
@[ext]
structure Coordinate where
  latitude : ℝ
  longitude : ℝ

/-- `toRad(degrees)` from locationUtils.js / server.js:
`degrees * Math.PI / 180`. -/
noncomputable def toRad (degrees : ℝ) : ℝ := degrees * Real.pi / 180

/-- JS `Math.atan2(y, x)`: the angle of the point `(x, y)` in `(-π, π]`,
modelled as the argument of the complex number `x + y*i`. -/
noncomputable def atan2 (y x : ℝ) : ℝ := Complex.arg ⟨x, y⟩

/-- Truncation toward zero, the rounding used by the JS `%` operator. -/
noncomputable def truncTowardZero (x : ℝ) : ℤ := if 0 ≤ x then ⌊x⌋ else ⌈x⌉

/-- JS remainder `a % n` on numbers: `a - n * trunc(a / n)`. -/
noncomputable def jsMod (a n : ℝ) : ℝ := a - n * truncTowardZero (a / n)

/-- `calculateDistance(coord1, coord2)` (haversine, Earth radius 6371 km)
from locationUtils.js and server.js.  The JS null-guard
`if (!coord1 || !coord2) return 0` is outside the embedding: both
coordinates are always present here. -/
noncomputable def calculateDistance (coord1 coord2 : Coordinate) : ℝ :=
  let R : ℝ := 6371
  let dLat := toRad (coord2.latitude - coord1.latitude)
  let dLon := toRad (coord2.longitude - coord1.longitude)
  let a :=
    Real.sin (dLat / 2) * Real.sin (dLat / 2) +
      Real.cos (toRad coord1.latitude) * Real.cos (toRad coord2.latitude) *
        Real.sin (dLon / 2) * Real.sin (dLon / 2)
  let c := 2 * atan2 (Real.sqrt a) (Real.sqrt (1 - a))
  R * c

/-- `calculateBearing(start, end)` (forward azimuth, degrees in `[0,360)`)
from locationUtils.js and server.js.  The JS null-guard is handled by
`calculateBearingOpt` below. -/
noncomputable def calculateBearing (start stop : Coordinate) : ℝ :=
  let startLat := toRad start.latitude
  let startLng := toRad start.longitude
  let endLat := toRad stop.latitude
  let endLng := toRad stop.longitude
  let y := Real.sin (endLng - startLng) * Real.cos endLat
  let x := Real.cos startLat * Real.sin endLat -
    Real.sin startLat * Real.cos endLat * Real.cos (endLng - startLng)
  let bearing := atan2 y x * 180 / Real.pi
  jsMod (bearing + 360) 360

/-- `calculateBearing` on possibly-undefined arguments: the source guards
`if (!start || !end) return 0`. -/
noncomputable def calculateBearingOpt : Option Coordinate → Option Coordinate → ℝ
  | some a, some b => calculateBearing a b
  | _, _ => 0

section Atan2Lemmas

lemma atan2_zero_of_pos {x : ℝ} (hx : 0 < x) : atan2 0 x = 0 := by
  have h : (⟨x, 0⟩ : ℂ) = (x : ℂ) := by
    apply Complex.ext <;> simp
  rw [atan2, h, Complex.arg_ofReal_of_nonneg hx.le]

lemma atan2_zero_of_neg {x : ℝ} (hx : x < 0) : atan2 0 x = Real.pi := by
  have h : (⟨x, 0⟩ : ℂ) = (x : ℂ) := by
    apply Complex.ext <;> simp
  rw [atan2, h, Complex.arg_ofReal_of_neg hx]

lemma atan2_pos_zero {y : ℝ} (hy : 0 < y) : atan2 y 0 = Real.pi / 2 := by
  have h : (⟨0, y⟩ : ℂ) = (y : ℂ) * Complex.I := by
    apply Complex.ext <;> simp
  rw [atan2, h, Complex.arg_real_mul _ hy, Complex.arg_I]

lemma atan2_neg_zero {y : ℝ} (hy : y < 0) : atan2 y 0 = -(Real.pi / 2) := by
  have h : (⟨0, y⟩ : ℂ) = ((-y : ℝ) : ℂ) * (-Complex.I) := by
    apply Complex.ext <;> simp
  rw [atan2, h, Complex.arg_real_mul _ (by linarith), Complex.arg_neg_I]

end Atan2Lemmas

/-- C7: For all coordinates `a` and `b`, the haversine distance satisfies
`calculateDistance a a = 0` and `calculateDistance a b = calculateDistance b a`.
Both identities hold exactly in the real-number model (the source computes
the same formula in floating point, whence the spec's tolerance caveat). -/
theorem calculateDistance_self_and_comm (a b : Coordinate) :
    calculateDistance a a = 0 ∧ calculateDistance a b = calculateDistance b a := by
  constructor
  · show 6371 * (2 * atan2 _ _) = 0
    have hsub : a.latitude - a.latitude = 0 := sub_self _
    have hsub' : a.longitude - a.longitude = 0 := sub_self _
    rw [hsub, hsub']
    have hrad : toRad 0 = 0 := by simp [toRad]
    rw [hrad]
    norm_num [atan2_zero_of_pos]
  · show 6371 * (2 * atan2 _ _) = 6371 * (2 * atan2 _ _)
    have hlat : toRad (a.latitude - b.latitude) = -toRad (b.latitude - a.latitude) := by
      simp [toRad]; ring
    have hlon : toRad (a.longitude - b.longitude) = -toRad (b.longitude - a.longitude) := by
      simp [toRad]; ring
    rw [hlat, hlon]
    rw [neg_div, Real.sin_neg, neg_div, Real.sin_neg]
    ring_nf

section JsModLemmas

lemma jsMod_eval {a n : ℝ} (k : ℤ) (h0 : 0 ≤ a / n) (hk : ⌊a / n⌋ = k) :
    jsMod a n = a - n * k := by
  unfold jsMod truncTowardZero
  rw [if_pos h0, hk]

lemma jsMod_360_360 : jsMod 360 360 = 0 := by
  have h : ⌊(360 : ℝ) / 360⌋ = 1 := by
    rw [Int.floor_eq_iff]
    norm_num
  rw [jsMod_eval 1 (by norm_num) h]
  norm_num

lemma jsMod_540_360 : jsMod 540 360 = 180 := by
  have h : ⌊(540 : ℝ) / 360⌋ = 1 := by
    rw [Int.floor_eq_iff]
    norm_num
  rw [jsMod_eval 1 (by norm_num) h]
  norm_num

lemma jsMod_405_360 : jsMod 405 360 = 45 := by
  have h : ⌊(405 : ℝ) / 360⌋ = 1 := by
    rw [Int.floor_eq_iff]
    norm_num
  rw [jsMod_eval 1 (by norm_num) h]
  norm_num

lemma jsMod_270_360 : jsMod 270 360 = 270 := by
  have h : ⌊(270 : ℝ) / 360⌋ = 0 := by
    rw [Int.floor_eq_iff]
    norm_num
  rw [jsMod_eval 0 (by norm_num) h]
  norm_num

end JsModLemmas

section BearingValues

lemma atan2_sqrt_two_halves :
    atan2 (Real.sqrt 2 / 2) (Real.sqrt 2 / 2) = Real.pi / 4 := by
  have h : (⟨Real.sqrt 2 / 2, Real.sqrt 2 / 2⟩ : ℂ) =
      Complex.cos ((Real.pi / 4 : ℝ) : ℂ) + Complex.sin ((Real.pi / 4 : ℝ) : ℂ) * Complex.I := by
    rw [← Complex.ofReal_cos, ← Complex.ofReal_sin]
    apply Complex.ext <;> simp [Real.cos_pi_div_four, Real.sin_pi_div_four]
  rw [atan2, h, Complex.arg_cos_add_sin_mul_I]
  rw [Set.mem_Ioc]
  constructor <;> linarith [Real.pi_pos]

/-- Bearing from `(0,0)` toward `(45,90)` evaluates to exactly 45 degrees. -/
lemma calculateBearing_origin_4590 :
    calculateBearing ⟨0, 0⟩ ⟨45, 90⟩ = 45 := by
  have hpi := Real.pi_ne_zero
  show jsMod _ _ = _
  have h45 : toRad 45 = Real.pi / 4 := by unfold toRad; ring
  have h90 : toRad 90 = Real.pi / 2 := by unfold toRad; ring
  have h0 : toRad 0 = 0 := by unfold toRad; ring
  simp only [h45, h90, h0]
  rw [show Real.sin (Real.pi / 2 - 0) * Real.cos (Real.pi / 4) = Real.sqrt 2 / 2 by
    rw [sub_zero, Real.sin_pi_div_two, Real.cos_pi_div_four]; ring]
  rw [show Real.cos 0 * Real.sin (Real.pi / 4) -
      Real.sin 0 * Real.cos (Real.pi / 4) * Real.cos (Real.pi / 2 - 0) = Real.sqrt 2 / 2 by
    rw [Real.cos_zero, Real.sin_zero, Real.sin_pi_div_four]; ring]
  rw [atan2_sqrt_two_halves]
  rw [show Real.pi / 4 * 180 / Real.pi + 360 = 45 * (Real.pi / Real.pi) + 360 by ring,
    div_self hpi]
  rw [show (45 : ℝ) * 1 + 360 = 405 by ring]
  exact jsMod_405_360

/-- Bearing from `(45,90)` back toward `(0,0)` evaluates to exactly 270
degrees (not 45 + 180 = 225: the forward azimuths of a great circle are
not antisymmetric in general). -/
lemma calculateBearing_4590_origin :
    calculateBearing ⟨45, 90⟩ ⟨0, 0⟩ = 270 := by
  have hpi := Real.pi_ne_zero
  show jsMod _ _ = _
  have h45 : toRad 45 = Real.pi / 4 := by unfold toRad; ring
  have h90 : toRad 90 = Real.pi / 2 := by unfold toRad; ring
  have h0 : toRad 0 = 0 := by unfold toRad; ring
  simp only [h45, h90, h0]
  rw [show Real.sin (0 - Real.pi / 2) * Real.cos 0 = (-1 : ℝ) by
    rw [zero_sub, Real.sin_neg, Real.sin_pi_div_two, Real.cos_zero]; ring]
  rw [show Real.cos (Real.pi / 4) * Real.sin 0 -
      Real.sin (Real.pi / 4) * Real.cos 0 * Real.cos (0 - Real.pi / 2) = (0 : ℝ) by
    rw [zero_sub, Real.cos_neg, Real.cos_pi_div_two, Real.sin_zero]; ring]
  rw [atan2_neg_zero (by norm_num)]
  rw [show -(Real.pi / 2) * 180 / Real.pi + 360 = -90 * (Real.pi / Real.pi) + 360 by ring,
    div_self hpi]
  rw [show (-90 : ℝ) * 1 + 360 = 270 by ring]
  exact jsMod_270_360

end BearingValues

/-- C4 counterexample: at `a = (0,0)`, `b = (45,90)` (with `a ≠ b`), the
forward azimuths are 45 and 270 degrees, which do not differ by 180
modulo 360 (the gap is 45 degrees, far beyond floating-point tolerance),
so the claimed antisymmetry of `calculateBearing` is false. -/
theorem calculateBearing_not_antisymm :
    calculateBearing ⟨0, 0⟩ ⟨45, 90⟩ = 45 ∧
    calculateBearing ⟨45, 90⟩ ⟨0, 0⟩ = 270 ∧
    ¬∃ k : ℤ, calculateBearing ⟨0, 0⟩ ⟨45, 90⟩ - calculateBearing ⟨45, 90⟩ ⟨0, 0⟩ =
      180 + 360 * k := by
  refine ⟨calculateBearing_origin_4590, calculateBearing_4590_origin, ?_⟩
  rintro ⟨k, hk⟩
  rw [calculateBearing_origin_4590, calculateBearing_4590_origin] at hk
  have hcast : (k : ℝ) = -9 / 8 := by linarith
  have hlt : (k : ℝ) < -1 := by rw [hcast]; norm_num
  have hgt : (-2 : ℝ) < k := by rw [hcast]; norm_num
  have h1 : k < -1 := by exact_mod_cast hlt
  have h2 : (-2 : ℤ) < k := by exact_mod_cast hgt
  omega

section SameMeridian

lemma calculateBearing_same_lng_northward (a b : Coordinate)
    (hlng : a.longitude = b.longitude) (hlt : a.latitude < b.latitude)
    (hspan : b.latitude - a.latitude < 180) :
    calculateBearing a b = 0 := by
  have hpi := Real.pi_ne_zero
  show jsMod _ _ = _
  have hdl : toRad b.longitude - toRad a.longitude = 0 := by rw [hlng]; ring
  rw [hdl, Real.sin_zero, Real.cos_zero]
  have hx : Real.cos (toRad a.latitude) * Real.sin (toRad b.latitude) -
      Real.sin (toRad a.latitude) * Real.cos (toRad b.latitude) * 1 =
      Real.sin (toRad b.latitude - toRad a.latitude) := by
    rw [Real.sin_sub]; ring
  rw [show (0 : ℝ) * Real.cos (toRad b.latitude) = 0 by ring, hx]
  have hd0 : 0 < toRad b.latitude - toRad a.latitude := by
    unfold toRad
    rw [show b.latitude * Real.pi / 180 - a.latitude * Real.pi / 180 =
      (b.latitude - a.latitude) * Real.pi / 180 by ring]
    have hba : 0 < b.latitude - a.latitude := by linarith
    exact div_pos (mul_pos hba Real.pi_pos) (by norm_num)
  have hdpi : toRad b.latitude - toRad a.latitude < Real.pi := by
    unfold toRad
    have hpp := Real.pi_pos
    rw [show b.latitude * Real.pi / 180 - a.latitude * Real.pi / 180 =
      (b.latitude - a.latitude) * (Real.pi / 180) by ring]
    calc (b.latitude - a.latitude) * (Real.pi / 180) <
        180 * (Real.pi / 180) := by
          apply mul_lt_mul_of_pos_right hspan; positivity
    _ = Real.pi := by ring
  rw [atan2_zero_of_pos (Real.sin_pos_of_pos_of_lt_pi hd0 hdpi)]
  rw [show (0 : ℝ) * 180 / Real.pi + 360 = 360 by ring]
  exact jsMod_360_360

lemma calculateBearing_same_lng_southward (a b : Coordinate)
    (hlng : a.longitude = b.longitude) (hlt : b.latitude < a.latitude)
    (hspan : a.latitude - b.latitude < 180) :
    calculateBearing a b = 180 := by
  have hpi := Real.pi_ne_zero
  show jsMod _ _ = _
  have hdl : toRad b.longitude - toRad a.longitude = 0 := by rw [hlng]; ring
  rw [hdl, Real.sin_zero, Real.cos_zero]
  have hx : Real.cos (toRad a.latitude) * Real.sin (toRad b.latitude) -
      Real.sin (toRad a.latitude) * Real.cos (toRad b.latitude) * 1 =
      Real.sin (toRad b.latitude - toRad a.latitude) := by
    rw [Real.sin_sub]; ring
  rw [show (0 : ℝ) * Real.cos (toRad b.latitude) = 0 by ring, hx]
  have hd0 : 0 < toRad a.latitude - toRad b.latitude := by
    unfold toRad
    rw [show a.latitude * Real.pi / 180 - b.latitude * Real.pi / 180 =
      (a.latitude - b.latitude) * Real.pi / 180 by ring]
    have hab : 0 < a.latitude - b.latitude := by linarith
    exact div_pos (mul_pos hab Real.pi_pos) (by norm_num)
  have hdpi : toRad a.latitude - toRad b.latitude < Real.pi := by
    unfold toRad
    have hpp := Real.pi_pos
    rw [show a.latitude * Real.pi / 180 - b.latitude * Real.pi / 180 =
      (a.latitude - b.latitude) * (Real.pi / 180) by ring]
    calc (a.latitude - b.latitude) * (Real.pi / 180) <
        180 * (Real.pi / 180) := by
          apply mul_lt_mul_of_pos_right hspan; positivity
    _ = Real.pi := by ring
  have hneg : Real.sin (toRad b.latitude - toRad a.latitude) < 0 := by
    rw [show toRad b.latitude - toRad a.latitude =
      -(toRad a.latitude - toRad b.latitude) by ring, Real.sin_neg]
    have := Real.sin_pos_of_pos_of_lt_pi hd0 hdpi
    linarith
  rw [atan2_zero_of_neg hneg]
  rw [show Real.pi * 180 / Real.pi + 360 = 180 * (Real.pi / Real.pi) + 360 by ring,
    div_self hpi]
  rw [show (180 : ℝ) * 1 + 360 = 540 by ring]
  exact jsMod_540_360

end SameMeridian

/-- C4 (amended): for two distinct points on the same meridian (equal
longitudes, latitudes strictly between -90 and 90 degrees),
`calculateBearing a b` and `calculateBearing b a` differ by exactly 180
degrees modulo 360 (the bearings are 0 and 180).  In general the claimed
antisymmetry fails for the forward azimuth (see the counterexample). -/
theorem calculateBearing_antisymm_same_meridian (a b : Coordinate)
    (hlng : a.longitude = b.longitude) (hne : a.latitude ≠ b.latitude)
    (ha1 : -90 < a.latitude) (ha2 : a.latitude < 90)
    (hb1 : -90 < b.latitude) (hb2 : b.latitude < 90) :
    ∃ k : ℤ, calculateBearing a b - calculateBearing b a = 180 + 360 * k := by
  rcases lt_or_gt_of_ne hne with hlt | hgt
  · refine ⟨-1, ?_⟩
    rw [calculateBearing_same_lng_northward a b hlng hlt (by linarith),
      calculateBearing_same_lng_southward b a hlng.symm hlt (by linarith)]
    norm_num
  · refine ⟨0, ?_⟩
    rw [calculateBearing_same_lng_southward a b hlng hgt (by linarith),
      calculateBearing_same_lng_northward b a hlng.symm hgt (by linarith)]
    norm_num

/-- Witness for the amended C4 theorem at the concrete meridian pair
`(0,0)` and `(10,0)`. -/
theorem calculateBearing_antisymm_same_meridian_witness :
    ((⟨0, 0⟩ : Coordinate).longitude = (⟨10, 0⟩ : Coordinate).longitude ∧
      (⟨0, 0⟩ : Coordinate).latitude ≠ (⟨10, 0⟩ : Coordinate).latitude) ∧
    ∃ k : ℤ, calculateBearing ⟨0, 0⟩ ⟨10, 0⟩ - calculateBearing ⟨10, 0⟩ ⟨0, 0⟩ =
      180 + 360 * k :=
  ⟨⟨by norm_num, by norm_num⟩,
    calculateBearing_antisymm_same_meridian ⟨0, 0⟩ ⟨10, 0⟩ (by norm_num) (by norm_num)
      (by norm_num) (by norm_num) (by norm_num) (by norm_num)⟩

/-! ## The ping-pong motion simulators (server.js and vehicleService.js) -/

/-- Simulated vehicle state as built by the `startVehicleSimulation`
initializers: current location, heading, the immutable `fixedRoute`
(`none` = JS `null`), the integer route index, traversal direction and
fractional progress.  Display-only fields (`name`, `speed`, `routeInfo`,
`lastUpdated`) are not modelled: no claim depends on them. -/
@[ext]
structure SimVehicle where
  id : String
  location : Coordinate
  heading : ℝ
  fixedRoute : Option (List Coordinate)
  currentRouteIndex : ℤ
  direction : ℤ
  progress : ℝ

/-- JS array indexing `l[i]`: `none` models `undefined` (negative or too
large index). -/
def listGet {α : Type} (l : List α) (i : ℤ) : Option α :=
  if 0 ≤ i then l[i.toNat]? else none

lemma listGet_eq_some {α : Type} (l : List α) (i : ℤ) (h0 : 0 ≤ i)
    (h : i.toNat < l.length) : listGet l i = some (l.get ⟨i.toNat, h⟩) := by
  unfold listGet
  rw [if_pos h0, List.getElem?_eq_getElem h]
  rfl

lemma listGet_isSome {α : Type} (l : List α) (i : ℤ) (h0 : 0 ≤ i)
    (h : i < (l.length : ℤ)) : ∃ a, listGet l i = some a := by
  have hn : i.toNat < l.length := by omega
  exact ⟨_, listGet_eq_some l i h0 hn⟩

/-- One step of the server simulator's interval callback
(`startVehicleSimulation` in server.js) for a single vehicle, with the
per-tick progress increment `step` abstracted as a parameter (the source
hardcodes `0.01`; the spec calls it a configuration constant).  Returns
`none` when the JS code would throw a `TypeError` (interpolating from an
undefined `currentPoint`); on every state reachable from the
initializers the result is `some`.  End-of-route policy: reverse
direction (ping-pong). -/
noncomputable def tickServer (step : ℝ) (vehicle : SimVehicle) : Option SimVehicle :=
  match vehicle.fixedRoute with
  | none => some vehicle
  | some route =>
    if 1 < route.length then
      let currentPoint := listGet route vehicle.currentRouteIndex
      let nextIndex := vehicle.currentRouteIndex + vehicle.direction
      if 0 ≤ nextIndex ∧ nextIndex < (route.length : ℤ) then
        let bearing := calculateBearingOpt currentPoint (listGet route nextIndex)
        let progress1 := vehicle.progress + step
        if 1 ≤ progress1 then
          -- `vehicle.currentRouteIndex += vehicle.direction` then the
          -- boundary check on the incremented index
          if (route.length : ℤ) - 1 ≤ nextIndex ∨ nextIndex ≤ 0 then
            let direction1 := vehicle.direction * (-1)
            let index1 : ℤ := if direction1 = -1 then (route.length : ℤ) - 1 else 0
            (listGet route index1).map fun pt =>
              { vehicle with
                  progress := 0, currentRouteIndex := index1,
                  direction := direction1, location := pt, heading := bearing }
          else
            (listGet route nextIndex).map fun pt =>
              { vehicle with
                  progress := 0, currentRouteIndex := nextIndex,
                  location := pt, heading := bearing }
        else
          match currentPoint, listGet route nextIndex with
          | some cur, some next =>
            some { vehicle with
                     progress := progress1,
                     location := ⟨cur.latitude + (next.latitude - cur.latitude) * progress1,
                       cur.longitude + (next.longitude - cur.longitude) * progress1⟩,
                     heading := bearing }
          | _, _ => none
      else
        some vehicle
    else
      some vehicle

/-- One step of the client vehicle service's interval callback
(`startVehicleSimulation` in vehicleService.js).  Identical to the server
tick except for the out-of-bounds `nextIndex` case: instead of passing
the vehicle through unchanged, it returns the vehicle with direction
reversed, index reset to the boundary for the old direction, and
progress 0. -/
noncomputable def tickClient (step : ℝ) (vehicle : SimVehicle) : Option SimVehicle :=
  match vehicle.fixedRoute with
  | none => some vehicle
  | some route =>
    if 1 < route.length then
      let currentPoint := listGet route vehicle.currentRouteIndex
      let nextIndex := vehicle.currentRouteIndex + vehicle.direction
      if 0 ≤ nextIndex ∧ nextIndex < (route.length : ℤ) then
        let bearing := calculateBearingOpt currentPoint (listGet route nextIndex)
        let progress1 := vehicle.progress + step
        if 1 ≤ progress1 then
          if (route.length : ℤ) - 1 ≤ nextIndex ∨ nextIndex ≤ 0 then
            let direction1 := vehicle.direction * (-1)
            let index1 : ℤ := if direction1 = -1 then (route.length : ℤ) - 1 else 0
            (listGet route index1).map fun pt =>
              { vehicle with
                  progress := 0, currentRouteIndex := index1,
                  direction := direction1, location := pt, heading := bearing }
          else
            (listGet route nextIndex).map fun pt =>
              { vehicle with
                  progress := 0, currentRouteIndex := nextIndex,
                  location := pt, heading := bearing }
        else
          match currentPoint, listGet route nextIndex with
          | some cur, some next =>
            some { vehicle with
                     progress := progress1,
                     location := ⟨cur.latitude + (next.latitude - cur.latitude) * progress1,
                       cur.longitude + (next.longitude - cur.longitude) * progress1⟩,
                     heading := bearing }
          | _, _ => none
      else
        -- "This should not happen, but just in case": reset direction
        some { vehicle with
                 direction := vehicle.direction * (-1),
                 currentRouteIndex :=
                   if vehicle.direction = 1 then (route.length : ℤ) - 1 else 0,
                 progress := 0 }
    else
      some vehicle

section ScenarioBearings

lemma jsMod_450_360 : jsMod 450 360 = 90 := by
  have h : ⌊(450 : ℝ) / 360⌋ = 1 := by
    rw [Int.floor_eq_iff]
    norm_num
  rw [jsMod_eval 1 (by norm_num) h]
  norm_num

lemma sin_pi_div_180_pos : 0 < Real.sin (Real.pi / 180) := by
  have hpp := Real.pi_pos
  apply Real.sin_pos_of_pos_of_lt_pi
  · positivity
  · linarith

/-- Due east along the equator: bearing from `(0,0)` to `(0,1)` is
exactly 90 degrees. -/
lemma calculateBearing_east_equator : calculateBearing ⟨0, 0⟩ ⟨0, 1⟩ = 90 := by
  have hpi := Real.pi_ne_zero
  show jsMod _ _ = _
  have h0 : toRad 0 = 0 := by unfold toRad; ring
  have h1 : toRad 1 = Real.pi / 180 := by unfold toRad; ring
  simp only [h0, h1]
  rw [show Real.sin (Real.pi / 180 - 0) * Real.cos 0 = Real.sin (Real.pi / 180) by
    rw [sub_zero, Real.cos_zero]; ring]
  rw [show Real.cos 0 * Real.sin 0 -
      Real.sin 0 * Real.cos 0 * Real.cos (Real.pi / 180 - 0) = (0 : ℝ) by
    rw [Real.sin_zero]; ring]
  rw [atan2_pos_zero sin_pi_div_180_pos]
  rw [show Real.pi / 2 * 180 / Real.pi + 360 = 90 * (Real.pi / Real.pi) + 360 by ring,
    div_self hpi]
  rw [show (90 : ℝ) * 1 + 360 = 450 by ring]
  exact jsMod_450_360

/-- Due north along a meridian: bearing from `(0,1)` to `(1,1)` is
exactly 0 degrees. -/
lemma calculateBearing_north_meridian : calculateBearing ⟨0, 1⟩ ⟨1, 1⟩ = 0 :=
  calculateBearing_same_lng_northward ⟨0, 1⟩ ⟨1, 1⟩ rfl (by norm_num) (by norm_num)

end ScenarioBearings

/-! ## The concrete spec scenario (route [(0,0), (0,1), (1,1)], step 0.5) -/

/-- The spec's concrete scenario route. -/
def c2route : List Coordinate := [⟨0, 0⟩, ⟨0, 1⟩, ⟨1, 1⟩]

/-- Initial vehicle for the scenario: routeIndex 0, direction +1,
progress 0. -/
def c2vehicle : SimVehicle :=
  { id := "vehicle-0", location := ⟨0, 0⟩, heading := 0,
    fixedRoute := some c2route, currentRouteIndex := 0, direction := 1, progress := 0 }

/-- Expected state after tick 1. -/
def c2state1 : SimVehicle :=
  { c2vehicle with progress := 0.5, location := ⟨0, 0.5⟩, heading := 90 }

/-- Expected state after tick 2. -/
def c2state2 : SimVehicle :=
  { c2vehicle with
      progress := 0, currentRouteIndex := 1, location := ⟨0, 1⟩, heading := 90 }

/-- Expected state after tick 3. -/
def c2state3 : SimVehicle :=
  { c2vehicle with
      progress := 0.5, currentRouteIndex := 1, location := ⟨0.5, 1⟩, heading := 0 }

/-- Expected state after tick 4. -/
def c2state4 : SimVehicle :=
  { c2vehicle with
      progress := 0, currentRouteIndex := 2, direction := -1,
      location := ⟨1, 1⟩, heading := 0 }

lemma c2route_length : c2route.length = 3 := rfl

lemma listGet_c2route_0 : listGet c2route 0 = some ⟨0, 0⟩ := rfl

lemma listGet_c2route_1 : listGet c2route 1 = some ⟨0, 1⟩ := rfl

lemma listGet_c2route_2 : listGet c2route 2 = some ⟨1, 1⟩ := rfl

lemma c2_tick1 : tickServer 0.5 c2vehicle = some c2state1 := by
  simp only [tickServer, c2vehicle, c2state1, calculateBearingOpt]
  norm_num [listGet_c2route_0, listGet_c2route_1, c2route_length,
    calculateBearing_east_equator]

lemma c2_tick2 : tickServer 0.5 c2state1 = some c2state2 := by
  simp only [tickServer, c2state1, c2state2, c2vehicle, calculateBearingOpt]
  norm_num [listGet_c2route_0, listGet_c2route_1, c2route_length,
    calculateBearing_east_equator]

lemma c2_tick3 : tickServer 0.5 c2state2 = some c2state3 := by
  simp only [tickServer, c2state2, c2state3, c2vehicle, calculateBearingOpt]
  norm_num [listGet_c2route_1, listGet_c2route_2, c2route_length,
    calculateBearing_north_meridian]

lemma c2_tick4 : tickServer 0.5 c2state3 = some c2state4 := by
  simp only [tickServer, c2state3, c2state4, c2vehicle, calculateBearingOpt]
  norm_num [listGet_c2route_1, listGet_c2route_2, c2route_length,
    calculateBearing_north_meridian]

/-- C2: on route [(0,0), (0,1), (1,1)] with per-tick progress step 0.5,
starting from routeIndex 0, direction +1, progress 0, the simulator tick
produces: tick 1 progress 0.5, location (0, 0.5), heading =
bearing((0,0),(0,1)) = 90; tick 2 progress 0, routeIndex 1, location
exactly (0,1); tick 3 progress 0.5, location (0.5, 1), heading =
bearing((0,1),(1,1)); tick 4 routeIndex 2, direction flipped to -1,
location (1,1). -/
theorem tickServer_concrete_scenario :
    tickServer 0.5 c2vehicle = some c2state1 ∧
    c2state1.progress = 0.5 ∧ c2state1.location = ⟨0, 0.5⟩ ∧
    c2state1.heading = calculateBearing ⟨0, 0⟩ ⟨0, 1⟩ ∧ c2state1.heading = 90 ∧
    tickServer 0.5 c2state1 = some c2state2 ∧
    c2state2.progress = 0 ∧ c2state2.currentRouteIndex = 1 ∧
    c2state2.location = ⟨0, 1⟩ ∧
    tickServer 0.5 c2state2 = some c2state3 ∧
    c2state3.progress = 0.5 ∧ c2state3.location = ⟨0.5, 1⟩ ∧
    c2state3.heading = calculateBearing ⟨0, 1⟩ ⟨1, 1⟩ ∧
    tickServer 0.5 c2state3 = some c2state4 ∧
    c2state4.currentRouteIndex = 2 ∧ c2state4.direction = -1 ∧
    c2state4.location = ⟨1, 1⟩ := by
  refine ⟨c2_tick1, rfl, rfl, ?_, rfl, c2_tick2, rfl, rfl, rfl, c2_tick3, rfl, rfl,
    ?_, c2_tick4, rfl, rfl, rfl⟩
  · rw [calculateBearing_east_equator]; rfl
  · rw [calculateBearing_north_meridian]; rfl

/-! ## Invariant preservation (C3) -/

/-- The spec's per-vehicle state invariant: when a fixed route is
assigned, the route index is within bounds, progress lies in [0,1), and
the direction is +1 or -1. -/
def SimInvariant (v : SimVehicle) : Prop :=
  match v.fixedRoute with
  | none => True
  | some route =>
      (0 ≤ v.currentRouteIndex ∧ v.currentRouteIndex < (route.length : ℤ)) ∧
      (0 ≤ v.progress ∧ v.progress < 1) ∧
      (v.direction = 1 ∨ v.direction = -1)

/-- C3: a tick of the server simulator on a vehicle with a route of
length at least 2 preserves the state invariants; when progress reaches
or exceeds 1 (and the next index is in bounds) the index advances by the
direction and progress resets to 0 in the same tick; and the direction
flips exactly in those ticks where the segment is completed and the
waypoint arrived at is an endpoint of the route, i.e. exactly when the
route index would leave [0, route.length - 1] on the subsequent
advancement. -/
theorem tickServer_preserves_invariants (step : ℝ) (v : SimVehicle)
    (route : List Coordinate) (hroute : v.fixedRoute = some route)
    (hlen : 2 ≤ route.length) (hstep : 0 ≤ step) (hinv : SimInvariant v) :
    ∃ v', tickServer step v = some v' ∧
      v'.fixedRoute = some route ∧ SimInvariant v' ∧
      ((0 ≤ v.currentRouteIndex + v.direction ∧
          v.currentRouteIndex + v.direction < (route.length : ℤ)) →
        (1 ≤ v.progress + step →
          v'.progress = 0 ∧
          v'.currentRouteIndex = v.currentRouteIndex + v.direction) ∧
        (v.progress + step < 1 →
          v'.progress = v.progress + step ∧
          v'.currentRouteIndex = v.currentRouteIndex)) ∧
      (v'.direction ≠ v.direction ↔
        (0 ≤ v.currentRouteIndex + v.direction ∧
          v.currentRouteIndex + v.direction < (route.length : ℤ)) ∧
        1 ≤ v.progress + step ∧
        (v.currentRouteIndex + v.direction = (route.length : ℤ) - 1 ∨
          v.currentRouteIndex + v.direction = 0)) := by
  have hlen1 : 1 < route.length := by omega
  simp only [SimInvariant, hroute] at hinv
  obtain ⟨⟨hidx0, hidxlt⟩, ⟨hp0, hp1⟩, hdir⟩ := hinv
  simp only [tickServer, hroute]
  rw [if_pos hlen1]
  by_cases hb : 0 ≤ v.currentRouteIndex + v.direction ∧
      v.currentRouteIndex + v.direction < (route.length : ℤ)
  · rw [if_pos hb]
    by_cases hov : 1 ≤ v.progress + step
    · rw [if_pos hov]
      by_cases hflip : (route.length : ℤ) - 1 ≤ v.currentRouteIndex + v.direction ∨
          v.currentRouteIndex + v.direction ≤ 0
      · rw [if_pos hflip]
        rcases hdir with h1 | h1
        · -- direction = 1: the incremented index hit route.length - 1
          have harrive : v.currentRouteIndex + v.direction = (route.length : ℤ) - 1 := by
            omega
          have hd1 : v.direction * (-1) = -1 := by rw [h1]; norm_num
          rw [hd1, if_pos rfl]
          obtain ⟨pt, hpt⟩ :=
            listGet_isSome route ((route.length : ℤ) - 1) (by omega) (by omega)
          rw [hpt, Option.map_some']
          refine ⟨_, rfl, rfl, ?_, ?_, ?_⟩
          · refine ⟨⟨?_, ?_⟩, ⟨le_refl 0, ?_⟩, Or.inr rfl⟩
            · show (0 : ℤ) ≤ (route.length : ℤ) - 1
              omega
            · show (route.length : ℤ) - 1 < (route.length : ℤ)
              omega
            · show (0 : ℝ) < 1
              norm_num
          · intro _
            refine ⟨fun _ => ⟨rfl, ?_⟩, fun hlt => absurd hov (by linarith)⟩
            show (route.length : ℤ) - 1 = v.currentRouteIndex + v.direction
            omega
          · apply iff_of_true
            · show (-1 : ℤ) ≠ v.direction
              omega
            · exact ⟨hb, hov, Or.inl harrive⟩
        · -- direction = -1: the decremented index hit 0
          have harrive : v.currentRouteIndex + v.direction = 0 := by omega
          have hd1 : v.direction * (-1) = 1 := by rw [h1]; norm_num
          rw [hd1, if_neg (by norm_num)]
          obtain ⟨pt, hpt⟩ := listGet_isSome route 0 (le_refl 0) (by omega)
          rw [hpt, Option.map_some']
          refine ⟨_, rfl, rfl, ?_, ?_, ?_⟩
          · refine ⟨⟨le_refl 0, ?_⟩, ⟨le_refl 0, ?_⟩, Or.inl rfl⟩
            · show (0 : ℤ) < (route.length : ℤ)
              omega
            · show (0 : ℝ) < 1
              norm_num
          · intro _
            refine ⟨fun _ => ⟨rfl, ?_⟩, fun hlt => absurd hov (by linarith)⟩
            show (0 : ℤ) = v.currentRouteIndex + v.direction
            omega
          · apply iff_of_true
            · show (1 : ℤ) ≠ v.direction
              omega
            · exact ⟨hb, hov, Or.inr harrive⟩
      · rw [if_neg hflip]
        obtain ⟨pt, hpt⟩ := listGet_isSome route _ hb.1 hb.2
        rw [hpt, Option.map_some']
        refine ⟨_, rfl, rfl, ?_, ?_, ?_⟩
        · refine ⟨⟨hb.1, hb.2⟩, ⟨le_refl 0, ?_⟩, hdir⟩
          show (0 : ℝ) < 1
          norm_num
        · intro _
          exact ⟨fun _ => ⟨rfl, rfl⟩, fun hlt => absurd hov (by linarith)⟩
        · apply iff_of_false
          · intro h
            exact h rfl
          · rintro ⟨-, -, hbd | hbd⟩ <;> omega
    · rw [if_neg hov]
      obtain ⟨cur, hcur⟩ := listGet_isSome route v.currentRouteIndex hidx0 hidxlt
      obtain ⟨next, hnext⟩ := listGet_isSome route _ hb.1 hb.2
      rw [hcur, hnext]
      refine ⟨_, rfl, rfl, ?_, ?_, ?_⟩
      · refine ⟨⟨hidx0, hidxlt⟩, ⟨?_, ?_⟩, hdir⟩
        · show (0 : ℝ) ≤ v.progress + step
          linarith
        · show v.progress + step < 1
          linarith [not_le.mp hov]
      · intro _
        exact ⟨fun h => absurd h hov, fun _ => ⟨rfl, rfl⟩⟩
      · apply iff_of_false
        · intro h
          exact h rfl
        · rintro ⟨-, h, -⟩
          exact hov h
  · rw [if_neg hb]
    refine ⟨v, rfl, hroute, ?_, ?_, ?_⟩
    · simp only [SimInvariant, hroute]
      exact ⟨⟨hidx0, hidxlt⟩, ⟨hp0, hp1⟩, hdir⟩
    · intro h
      exact absurd h hb
    · apply iff_of_false
      · intro h
        exact h rfl
      · rintro ⟨h, -, -⟩
        exact hb h

/-- Witness for the invariant-preservation theorem at the concrete
scenario vehicle. -/
theorem tickServer_preserves_invariants_witness :
    (c2vehicle.fixedRoute = some c2route ∧ 2 ≤ c2route.length ∧
      (0 : ℝ) ≤ 0.5 ∧ SimInvariant c2vehicle) ∧
    ∃ v', tickServer 0.5 c2vehicle = some v' ∧ SimInvariant v' := by
  have h1 : c2vehicle.fixedRoute = some c2route := rfl
  have h2 : 2 ≤ c2route.length := by norm_num [c2route]
  have h3 : (0 : ℝ) ≤ 0.5 := by norm_num
  have h4 : SimInvariant c2vehicle := by
    simp only [SimInvariant, c2vehicle]
    norm_num [c2route]
  obtain ⟨v', ht, -, hi, -, -⟩ :=
    tickServer_preserves_invariants 0.5 c2vehicle c2route h1 h2 h3 h4
  exact ⟨⟨h1, h2, h3, h4⟩, v', ht, hi⟩

/-! ## Tick-time error handling (C6) -/

/-- JS `Array.prototype.map` with a callback that may throw: `none` when
any element throws, which aborts the whole interval callback. -/
def mapOrThrow {α β : Type} (f : α → Option β) : List α → Option (List β)
  | [] => some []
  | a :: rest =>
    match f a, mapOrThrow f rest with
    | some b, some rest' => some (b :: rest')
    | _, _ => none

/-- The server interval callback's `simulatedVehicles.map(...)`. -/
noncomputable def tickAllServer (step : ℝ) (l : List SimVehicle) :
    Option (List SimVehicle) :=
  mapOrThrow (tickServer step) l

/-- The client vehicle service interval callback's
`simulatedVehicles.map(...)`. -/
noncomputable def tickAllClient (step : ℝ) (l : List SimVehicle) :
    Option (List SimVehicle) :=
  mapOrThrow (tickClient step) l

lemma mapOrThrow_append {α β : Type} (f : α → Option β) {l₁ l₂ : List α}
    {r₁ r₂ : List β} (h1 : mapOrThrow f l₁ = some r₁)
    (h2 : mapOrThrow f l₂ = some r₂) :
    mapOrThrow f (l₁ ++ l₂) = some (r₁ ++ r₂) := by
  induction l₁ generalizing r₁ with
  | nil =>
    simp only [mapOrThrow] at h1
    obtain rfl : r₁ = [] := by injection h1 with h; exact h.symm
    simpa using h2
  | cons a rest ih =>
    cases ha : f a with
    | none =>
      rw [mapOrThrow, ha] at h1
      cases hrest : mapOrThrow f rest <;> rw [hrest] at h1 <;> exact absurd h1 (by simp)
    | some b =>
      rw [mapOrThrow, ha] at h1
      cases hrest : mapOrThrow f rest with
      | none => rw [hrest] at h1; exact absurd h1 (by simp)
      | some r' =>
        rw [hrest] at h1
        obtain rfl : r₁ = b :: r' := by injection h1 with h; exact h.symm
        rw [List.cons_append, mapOrThrow, ha, ih hrest]
        rfl

/-- The two-point route of the C6 counterexample vehicle. -/
def c6route : List Coordinate := [⟨0, 0⟩, ⟨0, 1⟩]

/-- A vehicle with corrupt tick-time state: `currentRouteIndex = 1` and
`direction = +1` on a two-point route, so the next index 2 is outside
`[0, route.length - 1]`. -/
def c6vehicle : SimVehicle :=
  { id := "corrupt", location := ⟨0, 0⟩, heading := 0,
    fixedRoute := some c6route, currentRouteIndex := 1, direction := 1,
    progress := 0 }

/-- C6 counterexample: the client vehicle service does NOT pass a vehicle
with an out-of-bounds next index through the tick unchanged: it returns
the vehicle with its direction reversed (here -1 instead of +1). -/
theorem tickClient_oob_not_unchanged :
    tickClient 0.01 c6vehicle = some { c6vehicle with direction := -1 } ∧
    tickClient 0.01 c6vehicle ≠ some c6vehicle := by
  have heval : tickClient 0.01 c6vehicle = some { c6vehicle with direction := -1 } := by
    simp only [tickClient, c6vehicle]
    norm_num [c6route]
  refine ⟨heval, ?_⟩
  rw [heval]
  intro h
  have h2 : ({ c6vehicle with direction := -1 } : SimVehicle).direction =
      c6vehicle.direction := by rw [Option.some_inj.mp h]
  simp only [c6vehicle] at h2
  norm_num at h2

/-- C6 (amended): at tick time, a vehicle with no route or a route of
length < 2 is passed through unchanged by both simulators; a vehicle
whose next index falls outside [0, route.length - 1] is passed through
unchanged by the server simulator, while the client vehicle service
returns it, without throwing, with direction reversed, index reset to
the boundary selected by the old direction, and progress 0; and in
either simulator's shared tick loop such a vehicle does not halt the
loop: the other vehicles are still mapped to their normal tick results. -/
theorem tick_invalid_route_data (step : ℝ) (v : SimVehicle) :
    (v.fixedRoute = none → tickServer step v = some v ∧ tickClient step v = some v) ∧
    (∀ route, v.fixedRoute = some route → route.length < 2 →
      tickServer step v = some v ∧ tickClient step v = some v) ∧
    (∀ route, v.fixedRoute = some route → 2 ≤ route.length →
      ¬(0 ≤ v.currentRouteIndex + v.direction ∧
        v.currentRouteIndex + v.direction < (route.length : ℤ)) →
      tickServer step v = some v ∧
      tickClient step v = some { v with
        direction := v.direction * (-1),
        currentRouteIndex := if v.direction = 1 then (route.length : ℤ) - 1 else 0,
        progress := 0 } ∧
      (∀ l₁ l₂ r₁ r₂, tickAllServer step l₁ = some r₁ →
        tickAllServer step l₂ = some r₂ →
        tickAllServer step (l₁ ++ v :: l₂) = some (r₁ ++ v :: r₂)) ∧
      ∀ l₁ l₂ r₁ r₂, tickAllClient step l₁ = some r₁ →
        tickAllClient step l₂ = some r₂ →
        tickAllClient step (l₁ ++ v :: l₂) =
          some (r₁ ++
            { v with
                direction := v.direction * (-1),
                currentRouteIndex :=
                  if v.direction = 1 then (route.length : ℤ) - 1 else 0,
                progress := 0 } :: r₂)) := by
  refine ⟨?_, ?_, ?_⟩
  · intro hnone
    constructor
    · simp [tickServer, hnone]
    · simp [tickClient, hnone]
  · intro route hroute hshort
    constructor
    · simp only [tickServer, hroute]
      rw [if_neg (by omega)]
    · simp only [tickClient, hroute]
      rw [if_neg (by omega)]
  · intro route hroute hlen hoob
    have hserver : tickServer step v = some v := by
      simp only [tickServer, hroute]
      rw [if_pos (by omega), if_neg hoob]
    have hclient : tickClient step v =
        some { v with
                 direction := v.direction * (-1),
                 currentRouteIndex :=
                   if v.direction = 1 then (route.length : ℤ) - 1 else 0,
                 progress := 0 } := by
      simp only [tickClient, hroute]
      rw [if_pos (by omega), if_neg hoob]
    refine ⟨hserver, hclient, ?_, ?_⟩
    · intro l₁ l₂ r₁ r₂ h1 h2
      have h2x : mapOrThrow (tickServer step) l₂ = some r₂ := h2
      have hmid : mapOrThrow (tickServer step) (v :: l₂) = some (v :: r₂) := by
        rw [mapOrThrow, hserver, h2x]
      exact mapOrThrow_append (tickServer step) h1 hmid
    · intro l₁ l₂ r₁ r₂ h1 h2
      have h2x : mapOrThrow (tickClient step) l₂ = some r₂ := h2
      refine mapOrThrow_append (tickClient step) h1 ?_
      rw [mapOrThrow, hclient, h2x]

/-- Witness for the amended C6 theorem at the concrete corrupt vehicle
(two-point route, index 1, direction +1, next index 2 out of bounds). -/
theorem tick_invalid_route_data_witness :
    (c6vehicle.fixedRoute = some c6route ∧ 2 ≤ c6route.length ∧
      ¬(0 ≤ c6vehicle.currentRouteIndex + c6vehicle.direction ∧
        c6vehicle.currentRouteIndex + c6vehicle.direction < (c6route.length : ℤ))) ∧
    tickServer 0.01 c6vehicle = some c6vehicle := by
  have h1 : c6vehicle.fixedRoute = some c6route := rfl
  have h2 : 2 ≤ c6route.length := by norm_num [c6route]
  have h3 : ¬(0 ≤ c6vehicle.currentRouteIndex + c6vehicle.direction ∧
      c6vehicle.currentRouteIndex + c6vehicle.direction < (c6route.length : ℤ)) := by
    simp only [c6vehicle]
    norm_num [c6route]
  exact ⟨⟨h1, h2, h3⟩, ((tick_invalid_route_data 0.01 c6vehicle).2.2 c6route h1 h2 h3).1⟩

/-! ## Route-resolution failure handling (C5) -/

/-- Result of the asynchronous `generateVehicleRoute` call as consumed
by the client initializers: the promise either rejected
(`Except.error`), or resolved with a `routeInfo` whose `route` field is
null (`none`) or carries a coordinates list. -/
abbrev RouteResolution := Except Unit (Option (List Coordinate))

/-- Bidirectional route construction in the client vehicle service's
initializer: the forward coordinates followed by the reversed
coordinates minus their first element
(`[...coords].reverse().slice(1)`). -/
def bidirectionalRoute (coordinates : List Coordinate) : List Coordinate :=
  coordinates ++ coordinates.reverse.drop 1

/-- Per-vehicle initialization in the client vehicle service's
`startVehicleSimulation`: on success the bidirectional fixed route is
stored (a null route leaves `fixedRoute` null); the catch block
degrades the vehicle to no route.  In both cases the vehicle's
`location` is left unchanged and index/direction/progress are reset. -/
def initClientVehicle (vehicle : SimVehicle) (res : RouteResolution) : SimVehicle :=
  match res with
  | Except.ok routeOpt =>
    { vehicle with
        currentRouteIndex := 0,
        fixedRoute := routeOpt.map bidirectionalRoute,
        direction := 1, progress := 0 }
  | Except.error _ =>
    { vehicle with
        currentRouteIndex := 0, fixedRoute := none, direction := 1, progress := 0 }

/-- Whole-fleet initialization: one route resolution per vehicle, joined
before the interval starts. -/
def initClientFleet (vehicles : List SimVehicle)
    (results : List RouteResolution) : List SimVehicle :=
  List.zipWith initClientVehicle vehicles results

/-- `n` iterations of the client interval callback over the shared
vehicle collection. -/
noncomputable def iterTickAllClient (step : ℝ) :
    ℕ → List SimVehicle → Option (List SimVehicle)
  | 0, l => some l
  | n + 1, l =>
    match tickAllClient step l with
    | some l' => iterTickAllClient step n l'
    | none => none

/-- States on which the tick callbacks cannot throw: either no usable
route, or the current index is within bounds. -/
def TickSafe (v : SimVehicle) : Prop :=
  match v.fixedRoute with
  | none => True
  | some route =>
      route.length ≤ 1 ∨
        (0 ≤ v.currentRouteIndex ∧ v.currentRouteIndex < (route.length : ℤ))

lemma tickClient_none (step : ℝ) (v : SimVehicle) (h : v.fixedRoute = none) :
    tickClient step v = some v := by
  simp [tickClient, h]

lemma tickClient_safe_total (step : ℝ) (v : SimVehicle) (h : TickSafe v) :
    ∃ v', tickClient step v = some v' ∧ TickSafe v' ∧ v'.fixedRoute = v.fixedRoute := by
  cases hroute : v.fixedRoute with
  | none => exact ⟨v, tickClient_none step v hroute, by simp [TickSafe, hroute], hroute⟩
  | some route =>
    simp only [TickSafe, hroute] at h
    by_cases hlen : 1 < route.length
    · have hidx : 0 ≤ v.currentRouteIndex ∧ v.currentRouteIndex < (route.length : ℤ) := by
        rcases h with h | h
        · omega
        · exact h
      simp only [tickClient, hroute]
      rw [if_pos hlen]
      by_cases hb : 0 ≤ v.currentRouteIndex + v.direction ∧
          v.currentRouteIndex + v.direction < (route.length : ℤ)
      · rw [if_pos hb]
        by_cases hov : 1 ≤ v.progress + step
        · rw [if_pos hov]
          by_cases hflip : (route.length : ℤ) - 1 ≤ v.currentRouteIndex + v.direction ∨
              v.currentRouteIndex + v.direction ≤ 0
          · rw [if_pos hflip]
            by_cases hd : v.direction * (-1) = -1
            · rw [if_pos hd]
              obtain ⟨pt, hpt⟩ :=
                listGet_isSome route ((route.length : ℤ) - 1) (by omega) (by omega)
              rw [hpt, Option.map_some']
              refine ⟨_, rfl, ?_, rfl⟩
              refine Or.inr ⟨?_, ?_⟩
              · show (0 : ℤ) ≤ (route.length : ℤ) - 1
                omega
              · show (route.length : ℤ) - 1 < (route.length : ℤ)
                omega
            · rw [if_neg hd]
              obtain ⟨pt, hpt⟩ := listGet_isSome route 0 (le_refl 0) (by omega)
              rw [hpt, Option.map_some']
              refine ⟨_, rfl, ?_, rfl⟩
              refine Or.inr ⟨le_refl 0, ?_⟩
              show (0 : ℤ) < (route.length : ℤ)
              omega
          · rw [if_neg hflip]
            obtain ⟨pt, hpt⟩ := listGet_isSome route _ hb.1 hb.2
            rw [hpt, Option.map_some']
            exact ⟨_, rfl, Or.inr ⟨hb.1, hb.2⟩, rfl⟩
        · rw [if_neg hov]
          obtain ⟨cur, hcur⟩ := listGet_isSome route v.currentRouteIndex hidx.1 hidx.2
          obtain ⟨next, hnext⟩ := listGet_isSome route _ hb.1 hb.2
          rw [hcur, hnext]
          exact ⟨_, rfl, Or.inr ⟨hidx.1, hidx.2⟩, rfl⟩
      · rw [if_neg hb]
        refine ⟨_, rfl, ?_, rfl⟩
        by_cases hd : v.direction = 1
        · rw [if_pos hd]
          refine Or.inr ⟨?_, ?_⟩
          · show (0 : ℤ) ≤ (route.length : ℤ) - 1
            omega
          · show (route.length : ℤ) - 1 < (route.length : ℤ)
            omega
        · rw [if_neg hd]
          refine Or.inr ⟨le_refl 0, ?_⟩
          show (0 : ℤ) < (route.length : ℤ)
          omega
    · simp only [tickClient, hroute]
      rw [if_neg hlen]
      exact ⟨v, rfl, by simp only [TickSafe, hroute]; omega, hroute⟩

section MapOrThrowLemmas

lemma mapOrThrow_some_of_forall {α β : Type} (f : α → Option β) :
    ∀ l : List α, (∀ a ∈ l, ∃ b, f a = some b) → ∃ l', mapOrThrow f l = some l' := by
  intro l
  induction l with
  | nil => exact fun _ => ⟨[], rfl⟩
  | cons a rest ih =>
    intro h
    obtain ⟨b, hb⟩ := h a (List.mem_cons_self a rest)
    obtain ⟨r', hr'⟩ := ih fun x hx => h x (List.mem_cons_of_mem a hx)
    exact ⟨b :: r', by rw [mapOrThrow, hb, hr']⟩

lemma mapOrThrow_length {α β : Type} {f : α → Option β} :
    ∀ {l : List α} {l' : List β}, mapOrThrow f l = some l' → l'.length = l.length := by
  intro l
  induction l with
  | nil =>
    intro l' h
    simp only [mapOrThrow] at h
    obtain rfl : l' = [] := by injection h with h; exact h.symm
    rfl
  | cons a rest ih =>
    intro l' h
    rw [mapOrThrow] at h
    cases ha : f a with
    | none =>
      rw [ha] at h
      cases hrest : mapOrThrow f rest <;> rw [hrest] at h <;> exact absurd h (by simp)
    | some b =>
      rw [ha] at h
      cases hrest : mapOrThrow f rest with
      | none => rw [hrest] at h; exact absurd h (by simp)
      | some r' =>
        rw [hrest] at h
        obtain rfl : l' = b :: r' := by injection h with h; exact h.symm
        simp [ih hrest]

lemma mapOrThrow_getElem? {α β : Type} {f : α → Option β} :
    ∀ {l : List α} {l' : List β}, mapOrThrow f l = some l' →
      ∀ i : ℕ, l'[i]? = (l[i]?).bind f := by
  intro l
  induction l with
  | nil =>
    intro l' h i
    simp only [mapOrThrow] at h
    obtain rfl : l' = [] := by injection h with h; exact h.symm
    simp
  | cons a rest ih =>
    intro l' h i
    rw [mapOrThrow] at h
    cases ha : f a with
    | none =>
      rw [ha] at h
      cases hrest : mapOrThrow f rest <;> rw [hrest] at h <;> exact absurd h (by simp)
    | some b =>
      rw [ha] at h
      cases hrest : mapOrThrow f rest with
      | none => rw [hrest] at h; exact absurd h (by simp)
      | some r' =>
        rw [hrest] at h
        obtain rfl : l' = b :: r' := by injection h with h; exact h.symm
        cases i with
        | zero => simp [ha]
        | succ n => simpa using ih hrest n

lemma mapOrThrow_mem {α β : Type} {f : α → Option β} :
    ∀ {l : List α} {l' : List β}, mapOrThrow f l = some l' →
      ∀ b ∈ l', ∃ a ∈ l, f a = some b := by
  intro l
  induction l with
  | nil =>
    intro l' h b hb
    simp only [mapOrThrow] at h
    obtain rfl : l' = [] := by injection h with h; exact h.symm
    simp at hb
  | cons a rest ih =>
    intro l' h b hb
    rw [mapOrThrow] at h
    cases ha : f a with
    | none =>
      rw [ha] at h
      cases hrest : mapOrThrow f rest <;> rw [hrest] at h <;> exact absurd h (by simp)
    | some b0 =>
      rw [ha] at h
      cases hrest : mapOrThrow f rest with
      | none => rw [hrest] at h; exact absurd h (by simp)
      | some r' =>
        rw [hrest] at h
        obtain rfl : l' = b0 :: r' := by injection h with h; exact h.symm
        rcases List.mem_cons.mp hb with rfl | hb'
        · exact ⟨a, List.mem_cons_self a rest, ha⟩
        · obtain ⟨x, hx, hfx⟩ := ih hrest b hb'
          exact ⟨x, List.mem_cons_of_mem a hx, hfx⟩

end MapOrThrowLemmas

lemma initClientVehicle_safe (v : SimVehicle) (r : RouteResolution) :
    TickSafe (initClientVehicle v r) := by
  cases r with
  | error e => simp [initClientVehicle, TickSafe]
  | ok routeOpt =>
    cases routeOpt with
    | none => simp [initClientVehicle, TickSafe]
    | some coords =>
      simp only [initClientVehicle, TickSafe, Option.map_some']
      by_cases h : (bidirectionalRoute coords).length ≤ 1
      · exact Or.inl h
      · exact Or.inr ⟨le_refl 0, by push_neg at h; exact_mod_cast Nat.lt_of_lt_of_le Nat.zero_lt_one h.le⟩

lemma initClientFleet_safe :
    ∀ (vehicles : List SimVehicle) (results : List RouteResolution),
      ∀ v ∈ initClientFleet vehicles results, TickSafe v := by
  intro vehicles
  induction vehicles with
  | nil => intro results v hv; simp [initClientFleet] at hv
  | cons a rest ih =>
    intro results v hv
    cases results with
    | nil => simp [initClientFleet] at hv
    | cons r rs =>
      simp only [initClientFleet, List.zipWith_cons_cons] at hv
      rcases List.mem_cons.mp hv with rfl | hv'
      · exact initClientVehicle_safe a r
      · exact ih rs v hv'

/-- The fleet-level invariant maintained across ticks: full length, all
vehicles tick-safe, and the degraded vehicle `w` sits unchanged at
position `i`. -/
def FleetInv (n i : ℕ) (w : SimVehicle) (l : List SimVehicle) : Prop :=
  l.length = n ∧ (∀ v ∈ l, TickSafe v) ∧ l[i]? = some w

lemma tickAllClient_preserves_fleetInv (step : ℝ) {n i : ℕ} {w : SimVehicle}
    {l : List SimVehicle} (hw : w.fixedRoute = none) (h : FleetInv n i w l) :
    ∃ l', tickAllClient step l = some l' ∧ FleetInv n i w l' := by
  obtain ⟨hlen, hsafe, hpos⟩ := h
  obtain ⟨l', hl'⟩ := mapOrThrow_some_of_forall (tickClient step) l fun a ha =>
    (tickClient_safe_total step a (hsafe a ha)).imp fun b hb => hb.1
  refine ⟨l', hl', ?_, ?_, ?_⟩
  · rw [mapOrThrow_length hl', hlen]
  · intro v' hv'
    obtain ⟨a, ha, hfa⟩ := mapOrThrow_mem hl' v' hv'
    obtain ⟨b, hb, hbsafe, -⟩ := tickClient_safe_total step a (hsafe a ha)
    rw [hb] at hfa
    obtain rfl : v' = b := by injection hfa with hh; exact hh.symm
    exact hbsafe
  · rw [mapOrThrow_getElem? hl' i, hpos]
    simpa using tickClient_none step w hw

lemma iterTickAllClient_preserves_fleetInv (step : ℝ) {n i : ℕ} {w : SimVehicle}
    (hw : w.fixedRoute = none) :
    ∀ (m : ℕ) (l : List SimVehicle), FleetInv n i w l →
      ∃ l', iterTickAllClient step m l = some l' ∧ FleetInv n i w l' := by
  intro m
  induction m with
  | zero => exact fun l h => ⟨l, rfl, h⟩
  | succ m ih =>
    intro l h
    obtain ⟨l1, hl1, hinv1⟩ := tickAllClient_preserves_fleetInv step hw h
    obtain ⟨l', hl', hinv'⟩ := ih l1 hinv1
    refine ⟨l', ?_, hinv'⟩
    rw [iterTickAllClient]
    have hl1x : tickAllClient step l = some l1 := hl1
    rw [hl1x]
    exact hl'

/-- C5: a route-resolution failure for one vehicle during start is
caught and degrades only that vehicle: the initializer returns it with
no route and location unchanged, so `start` never propagates the error;
and for every number of ticks the shared collection (the one passed to
`onUpdate`) still exists (no crash), keeps its full length, and carries
the failed vehicle at its position with location unchanged from its
initial value and no route. -/
theorem startVehicleSimulation_degrades_failed_vehicle
    (vehicles : List SimVehicle) (results : List RouteResolution) (step : ℝ)
    (i n : ℕ) (hlen : results.length = vehicles.length) (hi : i < vehicles.length)
    (hfail : results[i]? = some (Except.error ())) :
    ∃ vi, vehicles[i]? = some vi ∧
      (initClientVehicle vi (Except.error ())).location = vi.location ∧
      (initClientVehicle vi (Except.error ())).fixedRoute = none ∧
      ∃ l', iterTickAllClient step n (initClientFleet vehicles results) = some l' ∧
        l'.length = vehicles.length ∧
        l'[i]? = some (initClientVehicle vi (Except.error ())) := by
  obtain ⟨vi, hvi⟩ : ∃ vi, vehicles[i]? = some vi :=
    ⟨_, List.getElem?_eq_getElem hi⟩
  have hwnone : (initClientVehicle vi (Except.error ())).fixedRoute = none := rfl
  have hfleetlen : (initClientFleet vehicles results).length = vehicles.length := by
    rw [initClientFleet, List.length_zipWith, hlen, Nat.min_self]
  have hfleetpos : (initClientFleet vehicles results)[i]? =
      some (initClientVehicle vi (Except.error ())) := by
    rw [initClientFleet, List.getElem?_zipWith, hvi, hfail]
  have hinv : FleetInv vehicles.length i (initClientVehicle vi (Except.error ()))
      (initClientFleet vehicles results) :=
    ⟨hfleetlen, initClientFleet_safe vehicles results, hfleetpos⟩
  obtain ⟨l', hl', hlen', -, hpos'⟩ :=
    iterTickAllClient_preserves_fleetInv step hwnone n _ hinv
  exact ⟨vi, hvi, rfl, hwnone, l', hl', hlen', hpos'⟩

/-- A base vehicle used to instantiate the C5 theorem. -/
def c5vehicle : SimVehicle :=
  { id := "vehicle-1", location := ⟨24, 46⟩, heading := 0,
    fixedRoute := none, currentRouteIndex := 0, direction := 1, progress := 0 }

/-- Witness for the C5 theorem: a one-vehicle fleet whose single route
resolution rejects, ticked once. -/
theorem startVehicleSimulation_degrades_failed_vehicle_witness :
    (([Except.error ()] : List RouteResolution).length = [c5vehicle].length ∧
      0 < [c5vehicle].length ∧
      ([Except.error ()] : List RouteResolution)[0]? = some (Except.error ())) ∧
    ∃ vi, [c5vehicle][0]? = some vi ∧
      (initClientVehicle vi (Except.error ())).location = vi.location ∧
      (initClientVehicle vi (Except.error ())).fixedRoute = none ∧
      ∃ l', iterTickAllClient 0.01 1 (initClientFleet [c5vehicle] [Except.error ()]) =
          some l' ∧
        l'.length = [c5vehicle].length ∧
        l'[0]? = some (initClientVehicle vi (Except.error ())) :=
  ⟨⟨rfl, by norm_num, rfl⟩,
    startVehicleSimulation_degrades_failed_vehicle [c5vehicle] [Except.error ()]
      0.01 0 1 rfl (by norm_num) rfl⟩

/-! ## The socket utility simulator and its undefined progress (C8) -/

/-- A coordinate whose components may fail to be real numbers (`none` =
JS `NaN`/`undefined`). -/
structure JSCoordinate where
  latitude : Option ℝ
  longitude : Option ℝ

/-- JS `+` on numbers where an operand may be `undefined` or `NaN`: the
result is `NaN` (`none`) unless both operands are real. -/
def jsAdd : Option ℝ → Option ℝ → Option ℝ
  | some a, some b => some (a + b)
  | _, _ => none

/-- JS `*` with the same `NaN` propagation (`NaN * x = NaN`, even for
`x = 0`). -/
def jsMul : Option ℝ → Option ℝ → Option ℝ
  | some a, some b => some (a * b)
  | _, _ => none

/-- JS `x >= 1`: every comparison against `NaN`/`undefined` is false. -/
def jsGeOne : Option ℝ → Prop
  | some x => 1 ≤ x
  | none => False

noncomputable instance (a : Option ℝ) : Decidable (jsGeOne a) :=
  match a with
  | some x => inferInstanceAs (Decidable (1 ≤ x))
  | none => isFalse fun h => h

/-- Vehicle state in the client socket utility's simulator
(src/utils/socketUtils.js). -/
structure SockVehicle where
  id : String
  location : JSCoordinate
  heading : ℝ
  originalLocation : Coordinate
  fixedRoute : Option (List Coordinate)
  currentRouteIndex : ℤ
  progress : Option ℝ

/-- The socket utility's `startVehicleSimulation` per-vehicle
initializer: stores `routeInfo`-derived fields but never sets a
`progress` field, so `progress` is `undefined` (`none`).  `res` is the
resolved fixed route (`none` for a null route or the catch block). -/
def initSockVehicle (id : String) (location : Coordinate) (heading : ℝ)
    (res : Option (List Coordinate)) : SockVehicle :=
  { id := id,
    location := ⟨some location.latitude, some location.longitude⟩,
    heading := heading, originalLocation := location,
    fixedRoute := res, currentRouteIndex := 0, progress := none }

/-- One step of `startSimulationInterval`'s callback (socketUtils.js)
for a single vehicle.  Policy differences from the other two
simulators: reaching the last index resets the vehicle to its original
location (loop-to-start, heading 0) instead of reversing, and the
per-tick increment is 0.0005.  `none` models a thrown TypeError. -/
noncomputable def tickSockVehicle (v : SockVehicle) : Option SockVehicle :=
  match v.fixedRoute with
  | none => some v
  | some route =>
    if 1 < route.length then
      if (route.length : ℤ) - 1 ≤ v.currentRouteIndex then
        some { v with
                 currentRouteIndex := 0,
                 location := ⟨some v.originalLocation.latitude,
                   some v.originalLocation.longitude⟩,
                 heading := 0 }
      else
        match listGet route v.currentRouteIndex,
            listGet route (v.currentRouteIndex + 1) with
        | some currentPoint, some nextPoint =>
          let bearing := calculateBearing currentPoint nextPoint
          let progress1 := jsAdd v.progress (some 0.0005)
          let progress2 := if jsGeOne progress1 then some (0 : ℝ) else progress1
          let index2 :=
            if jsGeOne progress1 then v.currentRouteIndex + 1 else v.currentRouteIndex
          some { v with
                   location := ⟨jsAdd (some currentPoint.latitude)
                       (jsMul (some (nextPoint.latitude - currentPoint.latitude))
                         progress2),
                     jsAdd (some currentPoint.longitude)
                       (jsMul (some (nextPoint.longitude - currentPoint.longitude))
                         progress2)⟩,
                   heading := bearing, currentRouteIndex := index2,
                   progress := progress2 }
        | _, _ => none
    else some v

/-- `n` iterations of the socket utility's interval tick on one vehicle. -/
noncomputable def iterSock : ℕ → SockVehicle → Option SockVehicle
  | 0, v => some v
  | n + 1, v =>
    match tickSockVehicle v with
    | some v' => iterSock n v'
    | none => none

lemma iterSock_succ_of_tick {v v1 : SockVehicle}
    (h : tickSockVehicle v = some v1) (m : ℕ) :
    iterSock (m + 1) v = iterSock m v1 := by
  rw [iterSock, h]

lemma tickSock_nan {v : SockVehicle} {route : List Coordinate}
    (hroute : v.fixedRoute = some route) (hlen : 2 ≤ route.length)
    (hidx : v.currentRouteIndex = 0) (hprog : v.progress = none) :
    ∃ v', tickSockVehicle v = some v' ∧ v'.fixedRoute = some route ∧
      v'.currentRouteIndex = 0 ∧ v'.progress = none ∧
      v'.location.latitude = none ∧ v'.location.longitude = none := by
  simp only [tickSockVehicle, hroute]
  rw [hidx, hprog]
  rw [if_pos (by omega : 1 < route.length)]
  rw [if_neg (by omega : ¬((route.length : ℤ) - 1 ≤ 0))]
  obtain ⟨cur, hcur⟩ := listGet_isSome route 0 (le_refl 0) (by omega)
  obtain ⟨next, hnext⟩ := listGet_isSome route (0 + 1) (by omega) (by omega)
  rw [hcur, hnext]
  have hcond : ¬ jsGeOne (jsAdd (none : Option ℝ) (some 0.0005)) := fun h => h
  rw [if_neg hcond, if_neg hcond]
  exact ⟨_, rfl, rfl, rfl, rfl, rfl, rfl⟩

lemma iterSock_nan {route : List Coordinate} (hlen : 2 ≤ route.length) :
    ∀ (n : ℕ) (v : SockVehicle), v.fixedRoute = some route →
      v.currentRouteIndex = 0 → v.progress = none → 1 ≤ n →
      ∃ v', iterSock n v = some v' ∧ v'.progress = none ∧
        v'.location.latitude = none ∧ v'.location.longitude = none := by
  intro n
  induction n with
  | zero => intro v _ _ _ h; exact absurd h (by norm_num)
  | succ m ih =>
    intro v hroute hidx hprog _
    obtain ⟨v1, ht, hr1, hi1, hp1, hla1, hlo1⟩ := tickSock_nan hroute hlen hidx hprog
    rcases Nat.eq_zero_or_pos m with h0 | h0
    · subst h0
      exact ⟨v1, by rw [iterSock_succ_of_tick ht, iterSock], hp1, hla1, hlo1⟩
    · obtain ⟨v', hv', hp', hla', hlo'⟩ := ih v1 hr1 hi1 hp1 h0
      exact ⟨v', by rw [iterSock_succ_of_tick ht]; exact hv', hp', hla', hlo'⟩

/-- C8: the socket utility's `startVehicleSimulation` initializes every
simulated vehicle without a `progress` field, so on the first tick
`vehicle.progress += 0.0005` is `NaN`; for every vehicle with a
fixedRoute of length at least 2, the location emitted to the update
callback has `NaN` latitude and longitude on every tick, progress never
resets (`NaN >= 1` is false, so it stays `NaN`), and the emitted
position never again equals any route waypoint. -/
theorem sockSimulation_progress_nan (id : String) (loc : Coordinate) (hd : ℝ)
    (route : List Coordinate) (hlen : 2 ≤ route.length) (n : ℕ) (hn : 1 ≤ n) :
    (initSockVehicle id loc hd (some route)).progress = none ∧
    ∃ v', iterSock n (initSockVehicle id loc hd (some route)) = some v' ∧
      v'.progress = none ∧
      v'.location.latitude = none ∧ v'.location.longitude = none ∧
      ∀ w ∈ route, v'.location.latitude ≠ some w.latitude ∧
        v'.location.longitude ≠ some w.longitude := by
  refine ⟨rfl, ?_⟩
  obtain ⟨v', hv', hp', hla', hlo'⟩ :=
    iterSock_nan hlen n (initSockVehicle id loc hd (some route)) rfl rfl rfl hn
  refine ⟨v', hv', hp', hla', hlo', ?_⟩
  intro w _
  rw [hla', hlo']
  exact ⟨by simp, by simp⟩

/-- Witness for the C8 theorem on the concrete scenario route, one
tick. -/
theorem sockSimulation_progress_nan_witness :
    (2 ≤ c2route.length ∧ 1 ≤ 1) ∧
    (initSockVehicle "vehicle-0" ⟨0, 0⟩ 0 (some c2route)).progress = none ∧
    ∃ v', iterSock 1 (initSockVehicle "vehicle-0" ⟨0, 0⟩ 0 (some c2route)) = some v' ∧
      v'.progress = none ∧
      v'.location.latitude = none ∧ v'.location.longitude = none ∧
      ∀ w ∈ c2route, v'.location.latitude ≠ some w.latitude ∧
        v'.location.longitude ≠ some w.longitude :=
  ⟨⟨by norm_num [c2route], le_refl 1⟩,
    sockSimulation_progress_nan "vehicle-0" ⟨0, 0⟩ 0 c2route
      (by norm_num [c2route]) 1 (le_refl 1)⟩

/-! ## Bidirectional route construction (C9) -/

/-- C9: for a successfully resolved route whose coordinates list has
length n >= 1, the client vehicle service assigns a fixedRoute equal to
the forward coordinates concatenated with the reversed coordinates
minus their first element: length 2n - 1, entries 0 and 2n - 2 both
equal the original start coordinate, and entry n - 1 + i equals
coordinate n - 1 - i for every 1 <= i <= n - 1. -/
theorem bidirectionalRoute_shape (coordinates : List Coordinate) (n : ℕ)
    (hn : coordinates.length = n) (h1 : 1 ≤ n) (v : SimVehicle) :
    (initClientVehicle v (Except.ok (some coordinates))).fixedRoute =
      some (bidirectionalRoute coordinates) ∧
    (bidirectionalRoute coordinates).length = 2 * n - 1 ∧
    (bidirectionalRoute coordinates)[0]? = coordinates[0]? ∧
    (bidirectionalRoute coordinates)[2 * n - 2]? = coordinates[0]? ∧
    ∀ i, 1 ≤ i → i ≤ n - 1 →
      (bidirectionalRoute coordinates)[n - 1 + i]? = coordinates[n - 1 - i]? := by
  have hlen : (bidirectionalRoute coordinates).length = 2 * n - 1 := by
    rw [bidirectionalRoute, List.length_append, List.length_drop,
      List.length_reverse, hn]
    omega
  refine ⟨rfl, hlen, ?_, ?_, ?_⟩
  · rw [bidirectionalRoute,
      List.getElem?_append_left (by omega : 0 < coordinates.length)]
  · rcases Nat.lt_or_ge n 2 with h2 | h2
    · have hn1 : n = 1 := by omega
      subst hn1
      rw [bidirectionalRoute,
        List.getElem?_append_left (by omega : 2 * 1 - 2 < coordinates.length)]
    · rw [bidirectionalRoute,
        List.getElem?_append_right (by omega : coordinates.length ≤ 2 * n - 2),
        List.getElem?_drop,
        List.getElem?_reverse
          (by omega : 1 + (2 * n - 2 - coordinates.length) < coordinates.length)]
      rw [show coordinates.length - 1 - (1 + (2 * n - 2 - coordinates.length)) = 0 by
        omega]
  · intro i hi1 hi2
    rw [bidirectionalRoute,
      List.getElem?_append_right (by omega : coordinates.length ≤ n - 1 + i),
      List.getElem?_drop,
      List.getElem?_reverse
        (by omega : 1 + (n - 1 + i - coordinates.length) < coordinates.length)]
    rw [show coordinates.length - 1 - (1 + (n - 1 + i - coordinates.length)) =
      n - 1 - i by omega]

/-- Witness for the C9 theorem on the three-point scenario route. -/
theorem bidirectionalRoute_shape_witness :
    (c2route.length = 3 ∧ 1 ≤ 3) ∧
    (bidirectionalRoute c2route).length = 2 * 3 - 1 ∧
    (bidirectionalRoute c2route)[2 * 3 - 2]? = c2route[0]? ∧
    (bidirectionalRoute c2route)[3 - 1 + 1]? = c2route[3 - 1 - 1]? := by
  obtain ⟨-, hl, -, h2, hi⟩ :=
    bidirectionalRoute_shape c2route 3 rfl (by norm_num) c5vehicle
  exact ⟨⟨rfl, by norm_num⟩, hl, h2, hi 1 (le_refl 1) (by norm_num)⟩

/-! ## Server vehicle generation (C10) -/

/-- A predefined bus route record (server.js `BUS_ROUTES`). -/
structure BusRoute where
  id : String
  name : String
  startPoint : String
  endPoint : String
  startCoordinates : Option Coordinate
  endCoordinates : Option Coordinate
  stops : ℕ
  color : String

/-- The server's five predefined bus routes. -/
noncomputable def BUS_ROUTES : List BusRoute :=
  [{ id := "route-1", name := "Bus #1", startPoint := "Al Urubah Station",
     endPoint := "Olaya buildings",
     startCoordinates := some ⟨24.715722, 46.672611⟩,
     endCoordinates := some ⟨24.711389, 46.674444⟩, stops := 8, color := "#2ecc71" },
   { id := "route-2", name := "Bus #2", startPoint := "Al Urubah Station",
     endPoint := "Sulimaniyah buildings",
     startCoordinates := some ⟨24.7175, 46.6726⟩,
     endCoordinates := some ⟨24.7244, 46.6872⟩, stops := 5, color := "#3498db" },
   { id := "route-3", name := "Bus #3", startPoint := "Sulimaniyah Station",
     endPoint := "Sulimaniyah Buildings",
     startCoordinates := some ⟨24.7244, 46.6872⟩,
     endCoordinates := some ⟨24.7165, 46.6765⟩, stops := 7, color := "#e74c3c" },
   { id := "route-4", name := "Bus #4",
     startPoint := "Kingdom Tower parking (Basement 2)",
     endPoint := "Olaya buildings",
     startCoordinates := some ⟨24.7165, 46.6765⟩,
     endCoordinates := some ⟨24.7155, 46.6705⟩, stops := 6, color := "#9b59b6" },
   { id := "route-5", name := "Bus #5", startPoint := "Olaya buildings",
     endPoint := "Sulimaniyah Buildings",
     startCoordinates := some ⟨24.7155, 46.6705⟩,
     endCoordinates := some ⟨24.7244, 46.6872⟩, stops := 9, color := "#f39c12" }]

/-- Vehicle record produced by the server's `generateVehicles`.
`lastUpdated` is not modelled. -/
structure ServerVehicle where
  id : String
  name : String
  type : String
  route : String
  routeId : String
  stops : ℕ
  speed : ℤ
  heading : ℤ
  location : Coordinate

/-- `generateVehicles(centerLocation, count)` from server.js.  `rnd k`
is the k-th `Math.random()` draw; each loop iteration consumes four
draws in source order (location latitude offset, location longitude
offset, speed, heading).  The `BUS_ROUTES.getD` default is never used:
the loop index stays below `BUS_ROUTES.length`. -/
noncomputable def generateVehicles (rnd : ℕ → ℝ) (centerLocation : Coordinate)
    (count : ℕ) : List ServerVehicle :=
  let actualCount := min count BUS_ROUTES.length
  (List.range actualCount).map fun i =>
    let routeData := BUS_ROUTES.getD i ⟨"", "", "", "", none, none, 0, ""⟩
    let location : Coordinate :=
      match routeData.startCoordinates with
      | some sc =>
        ⟨sc.latitude + (rnd (4 * i) - 0.5) * 0.001,
          sc.longitude + (rnd (4 * i + 1) - 0.5) * 0.001⟩
      | none =>
        ⟨centerLocation.latitude + (rnd (4 * i) - 0.5) * 0.03,
          centerLocation.longitude + (rnd (4 * i + 1) - 0.5) * 0.03⟩
    { id := "vehicle-" ++ toString i,
      name := "Bus " ++ toString (i + 1),
      type := "bus",
      route := routeData.name, routeId := routeData.id, stops := routeData.stops,
      speed := 20 + ⌊rnd (4 * i + 2) * 40⌋,
      heading := ⌊rnd (4 * i + 3) * 360⌋,
      location := location }

lemma BUS_ROUTES_length : BUS_ROUTES.length = 5 := rfl

/-- C10: `generateVehicles(center, count)` returns exactly
`min count 5` vehicles (the count is capped at the number of predefined
routes), and the i-th vehicle has id `vehicle-i`, name `Bus (i+1)`,
type `bus`, the routeId of the i-th predefined route, and an integer
speed in `[20, 60)`. -/
theorem generateVehicles_spec (rnd : ℕ → ℝ) (center : Coordinate) (count : ℕ)
    (hr : ∀ k, 0 ≤ rnd k ∧ rnd k < 1) :
    (generateVehicles rnd center count).length = min count 5 ∧
    ∀ i v, (generateVehicles rnd center count)[i]? = some v →
      v.id = "vehicle-" ++ toString i ∧
      v.name = "Bus " ++ toString (i + 1) ∧
      v.type = "bus" ∧
      (∃ r, BUS_ROUTES[i]? = some r ∧ v.routeId = r.id) ∧
      20 ≤ v.speed ∧ v.speed < 60 := by
  constructor
  · simp only [generateVehicles, List.length_map, List.length_range,
      BUS_ROUTES_length]
  · intro i v h
    simp only [generateVehicles, List.getElem?_map] at h
    by_cases hi : i < min count BUS_ROUTES.length
    · rw [List.getElem?_range hi] at h
      simp only [Option.map_some'] at h
      have hi5 : i < BUS_ROUTES.length := lt_of_lt_of_le hi (Nat.min_le_right _ _)
      have hv := Option.some_inj.mp h
      subst hv
      refine ⟨rfl, rfl, rfl, ?_, ?_, ?_⟩
      · refine ⟨BUS_ROUTES[i], List.getElem?_eq_getElem hi5, ?_⟩
        show (BUS_ROUTES.getD i ⟨"", "", "", "", none, none, 0, ""⟩).id = _
        rw [List.getD_eq_getElem?_getD, List.getElem?_eq_getElem hi5]
        rfl
      · show 20 ≤ 20 + ⌊rnd (4 * i + 2) * 40⌋
        have h0 : (0 : ℝ) ≤ rnd (4 * i + 2) * 40 :=
          mul_nonneg (hr (4 * i + 2)).1 (by norm_num)
        have := Int.floor_nonneg.mpr h0
        omega
      · show 20 + ⌊rnd (4 * i + 2) * 40⌋ < 60
        have hlt : rnd (4 * i + 2) * 40 < 40 := by
          have := (hr (4 * i + 2)).2
          nlinarith
        have : ⌊rnd (4 * i + 2) * 40⌋ < (40 : ℤ) := by
          apply Int.floor_lt.mpr
          push_cast
          exact hlt
        omega
    · rw [List.getElem?_eq_none (by rw [List.length_range]; omega)] at h
      exact absurd h (by simp)

/-- Witness for the C10 theorem: the all-zeros random stream, count 7
(capped to 5). -/
theorem generateVehicles_spec_witness :
    (generateVehicles (fun _ => 0) ⟨0, 0⟩ 7).length = min 7 5 :=
  (generateVehicles_spec (fun _ => 0) ⟨0, 0⟩ 7
    fun k => ⟨le_refl 0, by norm_num⟩).1

/-! ## Simulation lifecycle and the double-start race (C1) -/

/-- Scheduler events of the simulator lifecycle.  `callStart` is the
synchronous prefix of `startVehicleSimulation` (it runs
`stopVehicleSimulation()` and fires the route resolutions);
`resolveStart` is the continuation after `Promise.all` resolves (it
assigns the module-level `simulatedVehicles` and calls `setInterval`);
`callStop` is `stopVehicleSimulation()`. -/
inductive SimEvent where
  | callStart
  | resolveStart
  | callStop

/-- Module-level simulator state plus the runtime's set of live interval
timers.  `handle` is the `simulationInterval` variable, `live` the ids
of timers actually running, `nextTimer` the id `setInterval` returns
next, and `store` identifies which start's collection the single
`simulatedVehicles` variable currently holds (`none` = empty). -/
structure SimState where
  handle : Option ℕ
  live : List ℕ
  nextTimer : ℕ
  store : Option ℕ

/-- `stopVehicleSimulation()`: `clearInterval` on the referenced timer,
null the handle, empty the vehicle collection.  A timer whose id is no
longer referenced by `handle` is not cleared. -/
def stopSim (s : SimState) : SimState :=
  match s.handle with
  | some h => { s with handle := none, live := s.live.erase h, store := none }
  | none => { s with store := none }

/-- One lifecycle event. -/
def simStep (s : SimState) : SimEvent → SimState
  | SimEvent.callStart => stopSim s
  | SimEvent.resolveStart =>
    { handle := some s.nextTimer, live := s.nextTimer :: s.live,
      nextTimer := s.nextTimer + 1, store := some s.nextTimer }
  | SimEvent.callStop => stopSim s

/-- Run a sequence of lifecycle events from the initial module state. -/
def runSim (events : List SimEvent) : SimState :=
  events.foldl simStep ⟨none, [], 0, none⟩

/-- C1 counterexample: two start calls without an intervening stop,
where the second start is issued before the first start's asynchronous
route resolutions complete (callStart, callStart, resolveStart,
resolveStart).  The first start's interval is only created after the
second call's stop already ran, so nothing ever clears it: two periodic
timers are live, not one. -/
theorem doubleStart_interleaved_leaks_timer :
    (runSim [SimEvent.callStart, SimEvent.callStart,
      SimEvent.resolveStart, SimEvent.resolveStart]).live.length = 2 ∧
    (runSim [SimEvent.callStart, SimEvent.callStart,
      SimEvent.resolveStart, SimEvent.resolveStart]).live.length ≠ 1 := by
  constructor
  · rfl
  · decide

/-- C1 (amended): the synchronous stop at the head of
`startVehicleSimulation` always discards the stored vehicle state and
clears exactly the timer currently referenced by the module handle —
so after two sequential start calls (the second issued after the first
start's resolutions completed and its interval was created) exactly one
timer is live and the single shared collection holds the second start's
vehicles.  The guarantee does not extend to a second start issued
before the first start's resolutions complete (see the counterexample:
the first timer leaks). -/
theorem doubleStart_single_timer_when_sequential :
    (∀ s : SimState,
      (simStep s SimEvent.callStart).store = none ∧
      (simStep s SimEvent.callStart).handle = none ∧
      (simStep s SimEvent.callStart).live =
        (match s.handle with
         | some h => s.live.erase h
         | none => s.live)) ∧
    (runSim [SimEvent.callStart, SimEvent.resolveStart,
      SimEvent.callStart, SimEvent.resolveStart]).live = [1] ∧
    (runSim [SimEvent.callStart, SimEvent.resolveStart,
      SimEvent.callStart, SimEvent.resolveStart]).handle = some 1 ∧
    (runSim [SimEvent.callStart, SimEvent.resolveStart,
      SimEvent.callStart, SimEvent.resolveStart]).store = some 1 := by
  refine ⟨?_, rfl, rfl, rfl⟩
  intro s
  cases hh : s.handle with
  | none =>
    refine ⟨?_, ?_, ?_⟩ <;> simp [simStep, stopSim, hh]
  | some h =>
    refine ⟨?_, ?_, ?_⟩ <;> simp [simStep, stopSim, hh]

end ShuttleSim
